import Mathlib

/-!
Verification of the email-deep-validator core (address parser, MX resolver
adapter, SMTP mailbox-probe state machine, verification orchestrator) as a
shallow embedding in Lean.

The embedding follows `src/src/lib/index.ts` (the typed variant, whose result
model is the tri-state `ResultValue`), with the legacy `src/lib/index.js`
parser embedded separately where the two differ.  Strings are modelled as
Lean `String` / `List Char`; JavaScript regular-expression tests are compiled
into explicit executable character-list predicates.
-/

namespace EmailDeepValidator

/-- Tri-state verification outcome, from `src/src/lib/types.ts`. -/
inductive ResultValue where
  | VALID
  | INVALID
  | UNKNOWN
deriving DecidableEq, Repr

/-- One MX record as delivered by the external DNS capability
(`{ exchange, priority }`). -/
structure MxRecord where
  exchange : String
  priority : Nat
deriving DecidableEq, Repr

/-- The result record assembled by `verify` (`src/src/lib/types.ts`). -/
structure VerifyResult where
  wellFormed : ResultValue
  validDomain : ResultValue
  validMailbox : ResultValue
deriving DecidableEq, Repr

/-! ### String helpers

JavaScript `String.prototype.split(sep)` with a single-character separator,
on character lists. -/

/-- `splitOnChar sep l` splits `l` at every occurrence of `sep`, keeping empty
segments, exactly like JavaScript `"…".split(sep)`. -/
def splitOnChar (sep : Char) : List Char → List (List Char)
  | [] => [[]]
  | c :: rest =>
    let r := splitOnChar sep rest
    if c = sep then [] :: r
    else
      match r with
      | [] => [[c]]
      | h :: t => (c :: h) :: t

/-- `containsSeq pat l` holds when `pat` occurs as a contiguous run inside `l`;
this models JavaScript `String.prototype.includes`. -/
def containsSeq (pat : List Char) : List Char → Bool
  | [] => pat.isEmpty
  | c :: rest => pat.isPrefixOf (c :: rest) || containsSeq pat rest

/-! ### Address parsing -/

/-- Code points of the punctuation accepted in the local part by the
`isEmail` regular expression of `src/src/lib/index.ts`
(the characters `. ! # $ % & ' * + / = ? ^ _ \x60 \x7b | \x7d ~ -`). -/
def localSpecialCodes : List Nat :=
  [33, 35, 36, 37, 38, 39, 42, 43, 45, 46, 47, 61, 63, 94, 95, 96, 123, 124, 125, 126]

/-- A character allowed in the local part by the `isEmail` regular
expression of `src/src/lib/index.ts`. -/
def isLocalChar (c : Char) : Bool :=
  c.isAlpha || c.isDigit || localSpecialCodes.contains c.toNat

/-- A character allowed in a domain label (`[a-zA-Z0-9-]`). -/
def isDomainChar (c : Char) : Bool :=
  c.isAlpha || c.isDigit || c = '-'

/-- `isEmail` of `src/src/lib/index.ts`: the anchored regular expression
`^L+@D+(\.D+)*$` where `L` is the local-part class and `D` the label class.
Since `@` belongs to neither class and `.` not to `D`, a string matches
exactly when splitting at `@` yields two parts, the first a nonempty run of
local characters and the second a nonempty dot-separated sequence of
nonempty label-character runs. -/
def isEmail (address : String) : Bool :=
  match splitOnChar '@' address.data with
  | [localPart, domainPart] =>
    !localPart.isEmpty && localPart.all isLocalChar &&
      (splitOnChar '.' domainPart).all (fun label => !label.isEmpty && label.all isDomainChar)
  | _ => false

/-- `isEmail` of the legacy `src/lib/index.js`: `address.includes('@')`. -/
def isEmailJs (address : String) : Bool :=
  address.data.contains '@'

/-- `extractAddressParts` of `src/src/lib/index.ts`: throws (modelled as
`none`) when `isEmail` fails, otherwise returns `address.split('@')`. -/
def extractAddressParts (address : String) : Option (List (List Char)) :=
  if isEmail address then some (splitOnChar '@' address.data) else none

/-- The well-formedness criterion stated by the specification's data model:
the raw string splits on exactly one `@` into a nonempty local part and a
nonempty domain part.  Kept separate from `isEmail` (which embeds the
source) so the two can be compared. -/
def wellFormedSplitSpec (address : String) : Bool :=
  match splitOnChar '@' address.data with
  | [localPart, domainPart] => !localPart.isEmpty && !domainPart.isEmpty
  | _ => false

/-! ### MX resolution -/

/-- Insertion of a record into a priority-ascending list: the record goes in
front of the first entry whose priority is not smaller. -/
def insertByPriority (r : MxRecord) : List MxRecord → List MxRecord
  | [] => [r]
  | x :: xs => if r.priority ≤ x.priority then r :: x :: xs else x :: insertByPriority r xs

/-- Models `records.sort((a, b) => (a.priority > b.priority ? 1 : -1))` from
`resolveMxRecords` (`src/src/lib/index.ts`).  Caveat: that comparator never
returns 0, so it is not a consistent comparison function in the ECMAScript
sense and the standard leaves the resulting order — in particular the
relative order of equal-priority records — implementation-defined.  The
embedding fixes one concrete priority-ascending outcome (an insertion sort);
no theorem in this development depends on the order this definition gives to
records of equal priority: it is only ever evaluated on record lists with
pairwise distinct priorities, or on the empty list. -/
def jsSortByPriority (records : List MxRecord) : List MxRecord :=
  records.foldr insertByPriority []

/-- The pure core of `EmailValidator.resolveMxRecords`: sort the records the
DNS capability returned by ascending priority and keep the host names. -/
def resolveMxRecords (records : List MxRecord) : List String :=
  (jsSortByPriority records).map (fun r => r.exchange)

/-- `EmailValidator.resolveMxRecords` with its failure behaviour: the
promisified DNS call (`ninvoke(dns.resolveMx, domain)`) rejects on any
resolution failure (`none` outcome), and `resolveMxRecords` has no handler,
so the rejection propagates to its caller (`none` result). -/
def resolveMxRecordsEx (dnsOutcome : Option (List MxRecord)) : Option (List String) :=
  match dnsOutcome with
  | none => none
  | some records => some (resolveMxRecords records)

/-! ### SMTP reply classification -/

/-- The six reply codes `/^(510|511|513|550|551|553)/` recognised at line
start by `isInvalidMailboxError`. -/
def rejectionCodes : List (List Char) :=
  [['5', '1', '0'], ['5', '1', '1'], ['5', '1', '3'],
   ['5', '5', '0'], ['5', '5', '1'], ['5', '5', '3']]

/-- The reply line starts with one of the six mailbox-rejection codes. -/
def startsWithRejectionCode (d : List Char) : Bool :=
  rejectionCodes.any (fun p => p.isPrefixOf d)

/-- `/rbl.+blocked/` on an already lower-cased character list: somewhere in
the line, `rbl` followed by at least one character and then `blocked`
(`.` modelled as matching any character). -/
def rblBlocked : List Char → Bool
  | [] => false
  | c :: rest =>
    (['r', 'b', 'l'].isPrefixOf (c :: rest) &&
      containsSeq ['b', 'l', 'o', 'c', 'k', 'e', 'd'] ((c :: rest).drop 4)) ||
    rblBlocked rest

/-- The case-insensitive keyword alternation
`/(junk|spam|openspf|spoofing|host|rbl.+blocked)/ig` of
`isInvalidMailboxError`. -/
def containsSpamKeyword (d : List Char) : Bool :=
  let low := d.map Char.toLower
  ["junk", "spam", "openspf", "spoofing", "host"].any
      (fun k => containsSeq k.data low) ||
    rblBlocked low

/-- `isInvalidMailboxError` from `src/src/lib/index.ts`: a truthy reply that
starts with a rejection code and contains none of the spam/policy keywords. -/
def isInvalidMailboxError (smtpReply : String) : Bool :=
  !smtpReply.data.isEmpty && startsWithRejectionCode smtpReply.data &&
    !containsSpamKeyword smtpReply.data

/-- `isMultilineGreet` from `src/src/lib/index.ts`: a truthy reply matching
the anchored pattern `(250|220)` followed by a hyphen. -/
def isMultilineGreet (smtpReply : String) : Bool :=
  !smtpReply.data.isEmpty &&
    (['2', '5', '0', '-'].isPrefixOf smtpReply.data ||
      ['2', '2', '0', '-'].isPrefixOf smtpReply.data)

/-- `String.prototype.includes` on Lean strings (TypeScript checks
`sData.includes('220')` and the byte-level `data.includes('250')`, which
agree on the ASCII reply lines modelled here). -/
def includesSub (pat s : String) : Bool :=
  containsSeq pat.data s.data

/-! ### The mailbox-probe state machine

`EmailValidator.verifyMailbox` installs three callbacks on the socket —
`data`, `error`, and the `setTimeout` timer — all funnelled through the
closure `ret`, which is guarded by the `retFlag` resolved flag.  The session
is embedded as an explicit state record; the instrumentation fields
(`resolveCount`, `teardownCount`, `writes`) count the observable effects:
calls to `resolve`, executions of the `QUIT`-write/`end`/`clearTimeout`
teardown, and every line written to the socket. -/

/-- Mutable state of one probe session inside `verifyMailbox`'s promise. -/
structure ProbeState where
  /-- The `messages` queue: commands not yet written. -/
  messages : List String
  /-- The `retFlag` resolved guard. -/
  resolved : Bool
  /-- The value passed to `resolve`, once resolved. -/
  result : Option ResultValue
  /-- Number of times `resolve` has been invoked. -/
  resolveCount : Nat
  /-- Number of times the teardown sequence (write `QUIT`, `socket.end()`,
  `clearTimeout`) has run. -/
  teardownCount : Nat
  /-- Every line written to the socket, in order. -/
  writes : List String
deriving DecidableEq, Repr

/-- The `ret` closure: a no-op when the session is already resolved;
otherwise it writes `QUIT`, closes the socket, cancels the timer, resolves
the promise with `r` and sets the resolved flag.  (The `socket.destroyed`
check only skips the write on a socket already torn down; within one session
the first `ret` always finds the socket open, and later calls return at the
guard.) -/
def ret (r : ResultValue) (s : ProbeState) : ProbeState :=
  if s.resolved then s
  else
    { s with
      resolved := true
      result := some r
      resolveCount := s.resolveCount + 1
      teardownCount := s.teardownCount + 1
      writes := s.writes ++ ["QUIT"] }

/-- The `socket.on('data')` handler: classify the reply line, then either
resolve, ignore a multi-line banner continuation, write the next queued
command, or resolve `VALID` on an exhausted queue. -/
def onData (d : String) (s : ProbeState) : ProbeState :=
  if isInvalidMailboxError d then ret ResultValue.INVALID s
  else if !includesSub "220" d && !includesSub "250" d then ret ResultValue.UNKNOWN s
  else if isMultilineGreet d then s
  else
    match s.messages with
    | m :: rest => { s with messages := rest, writes := s.writes ++ [m] }
    | [] => ret ResultValue.VALID s

/-- An event delivered to the session: a reply line, a socket-level error,
or the expiry of the `setTimeout` timer. -/
inductive ProbeEvent where
  | data (line : String)
  | socketError
  | timeout
deriving DecidableEq, Repr

/-- Dispatch one event: `data` runs the classifier; both the
`socket.on('error')` handler and the timer callback call `ret(UNKNOWN)`. -/
def step (e : ProbeEvent) (s : ProbeState) : ProbeState :=
  match e with
  | .data d => onData d s
  | .socketError => ret ResultValue.UNKNOWN s
  | .timeout => ret ResultValue.UNKNOWN s

/-- Deliver a list of events in order. -/
def runProbe (events : List ProbeEvent) (s : ProbeState) : ProbeState :=
  events.foldl (fun st e => step e st) s

/-- The state of a fresh session: the three-command script queued, nothing
resolved, nothing written. -/
def initialState (localPart domain : String) : ProbeState :=
  { messages :=
      ["HELO " ++ domain,
       "MAIL FROM: <" ++ localPart ++ "@" ++ domain ++ ">",
       "RCPT TO: <" ++ localPart ++ "@" ++ domain ++ ">"]
    resolved := false
    result := none
    resolveCount := 0
    teardownCount := 0
    writes := [] }

/-- The `/yahoo/.test(mxRecord)` guard of `verifyMailbox` — note the regular
expression carries no `i` flag, so the match is case-sensitive. -/
def yahooTest (host : String) : Bool :=
  containsSeq "yahoo".data host.data

/-- The same check as the specification words it: substring `yahoo` matched
case-insensitively.  Kept separate from `yahooTest` (the source) for
comparison. -/
def yahooTestCI (host : String) : Bool :=
  containsSeq "yahoo".data (host.data.map Char.toLower)

/-- The pre-connection phase of `verifyMailbox`: destructuring `[mxRecord]`
takes the head of the host list; a missing or empty (falsy) head, or one
matching `/yahoo/`, returns `UNKNOWN` before any connection is opened.
`none` means the guard did not fire and the probe proceeds to
`net.connect`. -/
def verifyMailboxShort (hosts : List String) : Option ResultValue :=
  match hosts.head? with
  | none => some ResultValue.UNKNOWN
  | some h => if h = "" || yahooTest h then some ResultValue.UNKNOWN else none

/-! ### The orchestrator -/

/-- `verify` together with its observable effects on the collaborators. -/
structure VerifyTrace where
  result : VerifyResult
  /-- Whether `resolveMxRecords` (hence the DNS capability) was invoked. -/
  resolverCalled : Bool
  /-- Whether `verifyMailbox` reached `net.connect`. -/
  connectionOpened : Bool
deriving DecidableEq, Repr

/-- `EmailValidator.verify` from `src/src/lib/index.ts`.  The two suspension
points are abstracted as oracles: `dnsOutcome` is what the DNS capability
does for this domain (`none` = the call rejects), and `probeOutcome` is what
the SMTP conversation resolves to whenever a connection is actually opened. -/
def verify (verifyDomain verifyMailbox : Bool) (dnsOutcome : Option (List MxRecord))
    (probeOutcome : ResultValue) (address : String) : VerifyTrace :=
  if !isEmail address then
    { result :=
        { wellFormed := ResultValue.INVALID
          validDomain := ResultValue.UNKNOWN
          validMailbox := ResultValue.UNKNOWN }
      resolverCalled := false
      connectionOpened := false }
  else if !verifyDomain && !verifyMailbox then
    { result :=
        { wellFormed := ResultValue.VALID
          validDomain := ResultValue.UNKNOWN
          validMailbox := ResultValue.UNKNOWN }
      resolverCalled := false
      connectionOpened := false }
  else
    let mxRecords :=
      match resolveMxRecordsEx dnsOutcome with
      | none => []
      | some hosts => hosts
    let vDomain :=
      if verifyDomain then
        if mxRecords.length > 0 then ResultValue.VALID else ResultValue.INVALID
      else ResultValue.UNKNOWN
    let vMailbox :=
      if verifyMailbox then
        match verifyMailboxShort mxRecords with
        | some r => r
        | none => probeOutcome
      else ResultValue.UNKNOWN
    { result :=
        { wellFormed := ResultValue.VALID
          validDomain := vDomain
          validMailbox := vMailbox }
      resolverCalled := true
      connectionOpened := verifyMailbox && (verifyMailboxShort mxRecords).isNone }

/-! ### Helper lemmas on the reply classifiers -/

lemma head_of_isPrefixOf {a : Char} {p l : List Char}
    (h : (a :: p).isPrefixOf l = true) : ∃ t, l = a :: t := by
  cases l with
  | nil => simp [List.isPrefixOf] at h
  | cons b t =>
    simp [List.isPrefixOf] at h
    exact ⟨t, by rw [h.1]⟩

lemma head_of_startsWithRejectionCode {l : List Char}
    (h : startsWithRejectionCode l = true) : ∃ t, l = '5' :: t := by
  unfold startsWithRejectionCode rejectionCodes at h
  rw [List.any_eq_true] at h
  obtain ⟨p, hp, hpre⟩ := h
  simp only [List.mem_cons, List.not_mem_nil, or_false] at hp
  rcases hp with h1 | h1 | h1 | h1 | h1 | h1 <;> subst h1 <;>
    exact head_of_isPrefixOf hpre

lemma head_of_isMultilineGreet {d : String}
    (h : isMultilineGreet d = true) : ∃ t, d.data = '2' :: t := by
  unfold isMultilineGreet at h
  simp only [Bool.and_eq_true, Bool.or_eq_true] at h
  rcases h.2 with hpre | hpre <;> exact head_of_isPrefixOf hpre

lemma not_multilineGreet_of_startsWithRejectionCode {d : String}
    (h : startsWithRejectionCode d.data = true) : isMultilineGreet d = false := by
  by_contra hc
  rw [Bool.not_eq_false] at hc
  obtain ⟨t, ht⟩ := head_of_startsWithRejectionCode h
  obtain ⟨t2, ht2⟩ := head_of_isMultilineGreet hc
  rw [ht] at ht2
  exact absurd (List.head_eq_of_cons_eq ht2) (by decide)

lemma isInvalidMailboxError_eq_false_of_keyword {d : String}
    (h : containsSpamKeyword d.data = true) : isInvalidMailboxError d = false := by
  unfold isInvalidMailboxError
  rw [h]
  simp

lemma containsSeq_of_isPrefixOf {p l : List Char}
    (h : p.isPrefixOf l = true) : containsSeq p l = true := by
  cases l with
  | nil =>
    cases p with
    | nil => rfl
    | cons a q => simp [List.isPrefixOf] at h
  | cons c t =>
    unfold containsSeq
    rw [h]
    rfl

lemma isPrefixOf_dropLast4 {a b c e : Char} {l : List Char}
    (h : [a, b, c, e].isPrefixOf l = true) : [a, b, c].isPrefixOf l = true := by
  rw [List.isPrefixOf_iff_prefix] at h ⊢
  exact List.IsPrefix.trans ⟨[e], rfl⟩ h

lemma progress_code_of_isMultilineGreet {d : String}
    (h : isMultilineGreet d = true) :
    includesSub "220" d = true ∨ includesSub "250" d = true := by
  unfold isMultilineGreet at h
  simp only [Bool.and_eq_true, Bool.or_eq_true] at h
  rcases h.2 with hpre | hpre
  · exact Or.inr (containsSeq_of_isPrefixOf (isPrefixOf_dropLast4 hpre))
  · exact Or.inl (containsSeq_of_isPrefixOf (isPrefixOf_dropLast4 hpre))

/-! ### Helper lemmas on the probe session -/

/-- The session invariant tying the effect counters to the resolved flag:
`resolve` and the teardown sequence have each run exactly once if the
session is resolved, and never otherwise. -/
def CountsOk (s : ProbeState) : Prop :=
  s.resolveCount = (if s.resolved then 1 else 0) ∧
    s.teardownCount = (if s.resolved then 1 else 0)

lemma countsOk_initialState (localPart domain : String) :
    CountsOk (initialState localPart domain) := by
  constructor <;> rfl

lemma countsOk_ret {s : ProbeState} (h : CountsOk s) (r : ResultValue) :
    CountsOk (ret r s) := by
  unfold ret
  by_cases hr : s.resolved
  · simpa [hr] using h
  · simp only [hr, if_false]
    unfold CountsOk at h ⊢
    simp [hr] at h
    simp [h]

lemma resolved_ret (r : ResultValue) (s : ProbeState) : (ret r s).resolved = true := by
  unfold ret
  by_cases hr : s.resolved <;> simp [hr]

lemma countsOk_onData {s : ProbeState} (h : CountsOk s) (d : String) :
    CountsOk (onData d s) := by
  unfold onData
  split
  · exact countsOk_ret h _
  · split
    · exact countsOk_ret h _
    · split
      · exact h
      · split
        · unfold CountsOk at h ⊢
          simpa using h
        · exact countsOk_ret h _

lemma countsOk_step {s : ProbeState} (h : CountsOk s) (e : ProbeEvent) :
    CountsOk (step e s) := by
  cases e with
  | data d => exact countsOk_onData h d
  | socketError => exact countsOk_ret h _
  | timeout => exact countsOk_ret h _

lemma countsOk_runProbe {s : ProbeState} (h : CountsOk s) (events : List ProbeEvent) :
    CountsOk (runProbe events s) := by
  induction events generalizing s with
  | nil => exact h
  | cons e rest ih => exact ih (countsOk_step h e)

lemma resolved_step_mono {s : ProbeState} (h : s.resolved = true) (e : ProbeEvent) :
    (step e s).resolved = true := by
  cases e with
  | data d =>
    show (onData d s).resolved = true
    unfold onData
    split
    · exact resolved_ret _ _
    · split
      · exact resolved_ret _ _
      · split
        · exact h
        · split
          · exact h
          · exact resolved_ret _ _
  | socketError => exact resolved_ret _ _
  | timeout => exact resolved_ret _ _

lemma resolved_runProbe_mono {s : ProbeState} (h : s.resolved = true)
    (events : List ProbeEvent) : (runProbe events s).resolved = true := by
  induction events generalizing s with
  | nil => exact h
  | cons e rest ih => exact ih (resolved_step_mono h e)

lemma runProbe_append (l1 l2 : List ProbeEvent) (s : ProbeState) :
    runProbe (l1 ++ l2) s = runProbe l2 (runProbe l1 s) :=
  List.foldl_append _ _ l1 l2

lemma resolved_runProbe_of_terminal_mem {s : ProbeState} {events : List ProbeEvent}
    (h : ProbeEvent.socketError ∈ events ∨ ProbeEvent.timeout ∈ events) :
    (runProbe events s).resolved = true := by
  have split : ∃ e l1 l2, events = l1 ++ e :: l2 ∧ (step e (runProbe l1 s)).resolved = true := by
    rcases h with hm | hm
    · obtain ⟨l1, l2, hl⟩ := List.append_of_mem hm
      exact ⟨_, l1, l2, hl, resolved_ret _ _⟩
    · obtain ⟨l1, l2, hl⟩ := List.append_of_mem hm
      exact ⟨_, l1, l2, hl, resolved_ret _ _⟩
  obtain ⟨e, l1, l2, hl, hres⟩ := split
  rw [hl, show l1 ++ e :: l2 = (l1 ++ [e]) ++ l2 by simp, runProbe_append,
    runProbe_append]
  exact resolved_runProbe_mono hres l2

/-! ### Claim theorems -/

/-- Claim C1, counterexample: the reply line `550 Junk 250` starts with a
rejection code and contains the keyword `junk`, yet — arriving after the
greeting — it does not resolve `UNKNOWN`: because it also contains `250`,
the handler writes the next queued command instead. -/
theorem rejection_with_keyword_not_always_unknown :
    startsWithRejectionCode ("550 Junk 250").data = true ∧
    containsSpamKeyword ("550 Junk 250").data = true ∧
    (runProbe [ProbeEvent.data "220 hi"] (initialState "foo" "bar")).resolved = false ∧
    (onData "550 Junk 250"
        (runProbe [ProbeEvent.data "220 hi"] (initialState "foo" "bar"))).result ≠
      some ResultValue.UNKNOWN ∧
    (onData "550 Junk 250"
        (runProbe [ProbeEvent.data "220 hi"] (initialState "foo" "bar"))).writes =
      ["HELO bar", "MAIL FROM: <foo@bar>"] := by
  decide

/-- Claim C1 (corrected): on any unresolved session, a reply line starting
with one of the codes 510/511/513/550/551/553 and containing no
spam/policy keyword resolves `INVALID`; a rejection-coded line that does
contain such a keyword resolves `UNKNOWN` provided the line also contains
neither `220` nor `250` (otherwise it is treated as progress, see C10). -/
theorem mailbox_rejection_classification (d : String) (s : ProbeState)
    (h : s.resolved = false) :
    (isInvalidMailboxError d = true → (onData d s).result = some ResultValue.INVALID) ∧
    (startsWithRejectionCode d.data = true → containsSpamKeyword d.data = true →
      includesSub "220" d = false → includesSub "250" d = false →
      (onData d s).result = some ResultValue.UNKNOWN) := by
  constructor
  · intro hinv
    simp [onData, hinv, ret, h]
  · intro _ hkw h220 h250
    simp [onData, isInvalidMailboxError_eq_false_of_keyword hkw, h220, h250, ret, h]

/-- Witness for C1: the keyword-bearing rejection line `550 Junk`, which
contains neither `220` nor `250`, resolves `UNKNOWN` on a fresh session. -/
theorem mailbox_rejection_classification_witness :
    (onData "550 Junk" (initialState "foo" "bar")).result = some ResultValue.UNKNOWN :=
  (mailbox_rejection_classification "550 Junk" (initialState "foo" "bar") rfl).2
    (by decide) (by decide) (by decide) (by decide)

/-- Claim C2 (confirmed): over every ordering and multiplicity of data,
socket-error and timeout events, a session resolves at most once, the
teardown sequence runs exactly as many times as the resolution, and any
trace containing a socket-error or timeout event (as every complete real
execution does, since only resolution cancels the timer) resolves exactly
once. -/
theorem probe_resolves_exactly_once (events : List ProbeEvent) (localPart domain : String) :
    (runProbe events (initialState localPart domain)).resolveCount ≤ 1 ∧
    (runProbe events (initialState localPart domain)).teardownCount =
      (runProbe events (initialState localPart domain)).resolveCount ∧
    ((ProbeEvent.socketError ∈ events ∨ ProbeEvent.timeout ∈ events) →
      (runProbe events (initialState localPart domain)).resolveCount = 1) := by
  obtain ⟨h1, h2⟩ := countsOk_runProbe (countsOk_initialState localPart domain) events
  refine ⟨?_, ?_, ?_⟩
  · rw [h1]
    split <;> omega
  · rw [h1, h2]
  · intro hm
    rw [h1, resolved_runProbe_of_terminal_mem hm]
    rfl

/-- Witness for C2: a trace delivering a timeout after a socket error (and a
late data line after both) still resolves exactly once. -/
theorem probe_resolves_exactly_once_witness :
    (runProbe [ProbeEvent.socketError, ProbeEvent.timeout, ProbeEvent.data "250 ok"]
      (initialState "foo" "bar")).resolveCount = 1 :=
  (probe_resolves_exactly_once
      [ProbeEvent.socketError, ProbeEvent.timeout, ProbeEvent.data "250 ok"]
      "foo" "bar").2.2 (Or.inl (by decide))

/-- Claim C3 (confirmed): on every malformed address, `verify` returns
`wellFormed = INVALID` with both other fields `UNKNOWN`, without invoking
the MX resolver or opening a connection, for every configuration and every
behaviour of the collaborators. -/
theorem malformed_address_short_circuits (vd vm : Bool) (dns : Option (List MxRecord))
    (po : ResultValue) (address : String) (h : isEmail address = false) :
    verify vd vm dns po address =
      { result :=
          { wellFormed := ResultValue.INVALID
            validDomain := ResultValue.UNKNOWN
            validMailbox := ResultValue.UNKNOWN }
        resolverCalled := false
        connectionOpened := false } := by
  unfold verify
  rw [h]
  simp

/-- Witness for C3: the malformed address `bar.com`. -/
theorem malformed_address_short_circuits_witness :
    verify true true (some []) ResultValue.VALID "bar.com" =
      { result :=
          { wellFormed := ResultValue.INVALID
            validDomain := ResultValue.UNKNOWN
            validMailbox := ResultValue.UNKNOWN }
        resolverCalled := false
        connectionOpened := false } :=
  malformed_address_short_circuits true true (some []) ResultValue.VALID "bar.com" (by decide)

/-- Claim C4 (confirmed): every multi-line banner continuation line leaves
the session state untouched (no command written, queue not advanced), and
the conversation with a multi-line greeting
(`220-hello`, then `220 ready`, then three progress replies) still
resolves `VALID`; after the continuation line alone, nothing has been
written. -/
theorem multiline_greet_ignored_then_valid (d : String) (s : ProbeState)
    (h : isMultilineGreet d = true) :
    onData d s = s ∧
    (runProbe
        [ProbeEvent.data "220-hello", ProbeEvent.data "220 ready", ProbeEvent.data "250 ok",
         ProbeEvent.data "250 ok", ProbeEvent.data "250 ok"]
        (initialState "foo" "bar")).result = some ResultValue.VALID ∧
    (runProbe [ProbeEvent.data "220-hello"] (initialState "foo" "bar")).writes = [] := by
  refine ⟨?_, by decide, by decide⟩
  have hrej : isInvalidMailboxError d = false := by
    by_contra hc
    rw [Bool.not_eq_false] at hc
    have hstart : startsWithRejectionCode d.data = true := by
      unfold isInvalidMailboxError at hc
      simp only [Bool.and_eq_true] at hc
      exact hc.1.2
    rw [not_multilineGreet_of_startsWithRejectionCode hstart] at h
    exact Bool.false_ne_true h
  have hcond : (!includesSub "220" d && !includesSub "250" d) = false := by
    rcases progress_code_of_isMultilineGreet h with hp | hp <;> simp [hp]
  simp [onData, hrej, hcond, h]

/-- Witness for C4: the continuation line `220-hello` on a fresh session. -/
theorem multiline_greet_ignored_then_valid_witness :
    onData "220-hello" (initialState "foo" "bar") = initialState "foo" "bar" :=
  (multiline_greet_ignored_then_valid "220-hello" (initialState "foo" "bar") (by decide)).1

/-- Claim C5, counterexample: the guard uses the pattern `yahoo` without the
case-insensitive flag, so the host `mx.Yahoo.com` — which the claim says is
skipped — passes the guard and the probe proceeds to open a connection. -/
theorem yahoo_guard_case_sensitive_cex :
    yahooTestCI "mx.Yahoo.com" = true ∧
    yahooTest "mx.Yahoo.com" = false ∧
    verifyMailboxShort ["mx.Yahoo.com"] = none ∧
    (verify true true (some [{ exchange := "mx.Yahoo.com", priority := 10 }])
        ResultValue.VALID "foo@Yahoo.com").connectionOpened = true := by
  decide

/-- Claim C5 (corrected): if the host list is empty, or the top host name
contains the substring `yahoo` matched case-sensitively, the probe resolves
`UNKNOWN` before any connection is opened — even with valid MX records
present, in which case `validDomain` is simultaneously `VALID`. -/
theorem yahoo_or_missing_host_unknown (hosts : List String) (po : ResultValue)
    (h : hosts = [] ∨ ∃ h0 t, hosts = h0 :: t ∧ yahooTest h0 = true) :
    verifyMailboxShort hosts = some ResultValue.UNKNOWN ∧
    verify true true
        (some [{ exchange := "mx1.yahoo.com", priority := 30 },
               { exchange := "mx2.yahoo.com", priority := 10 }]) po "bar@yahoo.com" =
      { result :=
          { wellFormed := ResultValue.VALID
            validDomain := ResultValue.VALID
            validMailbox := ResultValue.UNKNOWN }
        resolverCalled := true
        connectionOpened := false } := by
  constructor
  · rcases h with h | ⟨h0, t, hh, hy⟩
    · rw [h]
      rfl
    · rw [hh]
      simp [verifyMailboxShort, hy]
  · cases po <;> decide

/-- Witness for C5: the lower-case host `mx.yahoo.com`. -/
theorem yahoo_or_missing_host_unknown_witness :
    verifyMailboxShort ["mx.yahoo.com"] = some ResultValue.UNKNOWN :=
  (yahoo_or_missing_host_unknown ["mx.yahoo.com"] ResultValue.VALID
      (Or.inr ⟨"mx.yahoo.com", [], rfl, by decide⟩)).1

/-- Claim C7 (confirmed): on any unresolved session, a socket-level error
resolves `UNKNOWN`, the timeout resolves `UNKNOWN`, and neither ever
resolves `INVALID`; both are absorbed by the session (the embedding of
`verify` is a total function — no exception reaches its caller). -/
theorem error_and_timeout_resolve_unknown (s : ProbeState) (h : s.resolved = false) :
    (step ProbeEvent.socketError s).result = some ResultValue.UNKNOWN ∧
    (step ProbeEvent.timeout s).result = some ResultValue.UNKNOWN ∧
    (step ProbeEvent.socketError s).result ≠ some ResultValue.INVALID ∧
    (step ProbeEvent.timeout s).result ≠ some ResultValue.INVALID := by
  refine ⟨?_, ?_, ?_, ?_⟩ <;> simp [step, ret, h]

/-- Witness for C7: a socket error on a fresh session. -/
theorem error_and_timeout_resolve_unknown_witness :
    (step ProbeEvent.socketError (initialState "foo" "bar")).result =
      some ResultValue.UNKNOWN :=
  (error_and_timeout_resolve_unknown (initialState "foo" "bar") rfl).1

/-- Claim C8, counterexample: on a failing resolution, `resolveMxRecords`
itself does not return an empty sequence — the rejected DNS call propagates
to its caller. -/
theorem resolveMxRecords_propagates_failure :
    resolveMxRecordsEx none = none ∧ resolveMxRecordsEx none ≠ some [] := by
  decide

/-- Claim C8 (corrected): `resolveMxRecords` propagates any resolution
failure to its caller `verify`, whose catch block substitutes the empty
host list — so the verification pipeline treats every resolution failure
exactly like an empty MX record set. -/
theorem verify_resolution_failure_as_empty (vd vm : Bool) (po : ResultValue)
    (address : String) :
    verify vd vm none po address = verify vd vm (some []) po address ∧
    resolveMxRecordsEx none = none :=
  ⟨rfl, rfl⟩

/-- Claim C9, counterexample: under the typed parser, `a b@c.com` splits on
exactly one `@` into nonempty parts yet is not well-formed; under the legacy
parser, `a@@b` is well-formed yet does not split on exactly one `@` into
nonempty parts. -/
theorem wellformed_split_spec_cex :
    (isEmail "a b@c.com" = false ∧ wellFormedSplitSpec "a b@c.com" = true) ∧
    (isEmailJs "a@@b" = true ∧ wellFormedSplitSpec "a@@b" = false) := by
  decide

/-- Claim C9 (corrected): the address is well-formed exactly when it splits
at `@` into two parts, the local part a nonempty run of the allowed
local-part characters and the domain a nonempty dot-separated sequence of
nonempty alphanumeric-or-hyphen labels; `extractAddressParts` fails exactly
when the address is not well-formed, otherwise returning the parts split at
`@`. -/
theorem isEmail_split_characterisation (address : String) :
    (extractAddressParts address = none ↔ isEmail address = false) ∧
    (isEmail address = true →
      extractAddressParts address = some (splitOnChar '@' address.data) ∧
      ∃ localPart domainPart,
        splitOnChar '@' address.data = [localPart, domainPart] ∧
        localPart ≠ [] ∧ localPart.all isLocalChar = true ∧
        (splitOnChar '.' domainPart).all
          (fun lab => !lab.isEmpty && lab.all isDomainChar) = true) := by
  constructor
  · unfold extractAddressParts
    by_cases he : isEmail address <;> simp [he]
  · intro he
    refine ⟨by unfold extractAddressParts; rw [he]; simp, ?_⟩
    unfold isEmail at he
    rcases hs : splitOnChar '@' address.data with _ | ⟨l, _ | ⟨dm, _ | ⟨x, xs⟩⟩⟩ <;>
      rw [hs] at he
    · simp at he
    · simp at he
    · simp only [Bool.and_eq_true] at he
      refine ⟨l, dm, rfl, ?_, he.1.2, he.2⟩
      intro hnil
      rw [hnil] at he
      simp at he
    · simp at he

/-- Witness for C9: the well-formed address `foo@bar.com`. -/
theorem isEmail_split_characterisation_witness :
    extractAddressParts "foo@bar.com" = some (splitOnChar '@' ("foo@bar.com").data) :=
  ((isEmail_split_characterisation "foo@bar.com").2 (by decide)).1

/-- Claim C10 (confirmed): on any unresolved session, a rejection-coded line
excused by a spam/policy keyword and containing `220` or `250` somewhere in
its text is never resolved `UNKNOWN`: the handler writes the next queued
command, or resolves `VALID` when the queue is empty. -/
theorem keyword_excused_rejection_progresses (d : String) (s : ProbeState)
    (h : s.resolved = false) (h2 : s.result = none)
    (hrej : startsWithRejectionCode d.data = true)
    (hkw : containsSpamKeyword d.data = true)
    (hprog : includesSub "220" d = true ∨ includesSub "250" d = true) :
    (onData d s).result ≠ some ResultValue.UNKNOWN ∧
    (∀ m rest, s.messages = m :: rest →
      onData d s = { s with messages := rest, writes := s.writes ++ [m] }) ∧
    (s.messages = [] → (onData d s).result = some ResultValue.VALID) := by
  have hinv := isInvalidMailboxError_eq_false_of_keyword hkw
  have hml := not_multilineGreet_of_startsWithRejectionCode hrej
  have hcond : (!includesSub "220" d && !includesSub "250" d) = false := by
    rcases hprog with hp | hp <;> simp [hp]
  refine ⟨?_, ?_, ?_⟩
  · cases hm : s.messages with
    | nil => simp [onData, hinv, hcond, hml, hm, ret, h]
    | cons m rest => simp [onData, hinv, hcond, hml, hm, h2]
  · intro m rest hm
    simp [onData, hinv, hcond, hml, hm]
  · intro hm
    simp [onData, hinv, hcond, hml, hm, ret, h]

/-- Witness for C10: after the greeting of a fresh session, the line
`550 Junk 250` advances the queue by writing `HELO bar`. -/
theorem keyword_excused_rejection_progresses_witness :
    onData "550 Junk 250" (initialState "foo" "bar") =
      { initialState "foo" "bar" with
        messages := ["MAIL FROM: <foo@bar>", "RCPT TO: <foo@bar>"]
        writes := ["HELO bar"] } :=
  (keyword_excused_rejection_progresses "550 Junk 250" (initialState "foo" "bar") rfl rfl
      (by decide) (by decide) (Or.inr (by decide))).2.1
    "HELO bar" ["MAIL FROM: <foo@bar>", "RCPT TO: <foo@bar>"] rfl

end EmailDeepValidator
